import Mathlib

/-
Verification development for the clipslot repository (Rust, client `src-tauri`
plus server `clipslot-server`).  The Rust code is shallowly embedded: byte
strings (`&str`, `Vec<u8>`) become `List Nat` with every element `< 256`,
machine integers become `Int`/`Nat`, fallible operations return `Option` or
`Except String`.  Third-party crates (`base64`, `aes-gcm`, `chrono`) are
modelled as follows: base64 is implemented concretely (the STANDARD engine:
canonical padding, strict trailing bits), the AEAD cipher and the RFC-3339
parser are abstracted as function parameters, with their documented contracts
taken as hypotheses where a theorem needs them.
-/

namespace ClipSlot

/-- Encoding table of the base64 STANDARD alphabet: a 6-bit value to the
ASCII code of its symbol. -/
def b64Char (n : Nat) : Nat :=
  if n < 26 then 65 + n
  else if n < 52 then 97 + (n - 26)
  else if n < 62 then 48 + (n - 52)
  else if n = 62 then 43
  else 47

/-- Decoding table: ASCII code of a symbol back to its 6-bit value, `none`
for characters outside the STANDARD alphabet (including the pad char). -/
def b64Val (c : Nat) : Option Nat :=
  if 65 ≤ c ∧ c ≤ 90 then some (c - 65)
  else if 97 ≤ c ∧ c ≤ 122 then some (c - 97 + 26)
  else if 48 ≤ c ∧ c ≤ 57 then some (c - 48 + 52)
  else if c = 43 then some 62
  else if c = 47 then some 63
  else none

theorem b64Val_b64Char : ∀ n < 64, b64Val (b64Char n) = some n := by decide

theorem b64Char_ne_pad : ∀ n < 64, b64Char n ≠ 61 := by decide

/-- Base64 encoding of a byte list, as performed by the base64 crate's
STANDARD engine (`BASE64.encode`): 3 input bytes to 4 alphabet symbols,
with `=` (ASCII 61) padding for a 1- or 2-byte tail. -/
def base64Encode : List Nat → List Nat
  | [] => []
  | [b1] => [b64Char (b1 / 4), b64Char (b1 % 4 * 16), 61, 61]
  | [b1, b2] => [b64Char (b1 / 4), b64Char (b1 % 4 * 16 + b2 / 16),
      b64Char (b2 % 16 * 4), 61]
  | b1 :: b2 :: b3 :: rest =>
      b64Char (b1 / 4) :: b64Char (b1 % 4 * 16 + b2 / 16) ::
      b64Char (b2 % 16 * 4 + b3 / 64) :: b64Char (b3 % 64) :: base64Encode rest

/-- Base64 decoding as performed by the STANDARD engine (`BASE64.decode`):
requires a length that is a multiple of four, canonical `=` padding at the
very end, and zero trailing bits in the final partial group; returns `none`
otherwise. -/
def base64Decode : List Nat → Option (List Nat)
  | [] => some []
  | c1 :: c2 :: c3 :: c4 :: rest =>
    match b64Val c1, b64Val c2 with
    | some d1, some d2 =>
      if c3 = 61 then
        if c4 = 61 ∧ rest = [] ∧ d2 % 16 = 0 then
          some [d1 * 4 + d2 / 16]
        else none
      else
        match b64Val c3 with
        | some d3 =>
          if c4 = 61 then
            if rest = [] ∧ d3 % 4 = 0 then
              some [d1 * 4 + d2 / 16, d2 % 16 * 16 + d3 / 4]
            else none
          else
            match b64Val c4 with
            | some d4 =>
              (base64Decode rest).map
                (fun bs => (d1 * 4 + d2 / 16) :: (d2 % 16 * 16 + d3 / 4) ::
                  (d3 % 4 * 64 + d4) :: bs)
            | none => none
        | none => none
    | _, _ => none
  | _ => none

/-- Round trip of the base64 model: decoding an encoding recovers the bytes
(for genuine bytes, i.e. values below 256). -/
theorem base64Decode_encode :
    ∀ bs : List Nat, (∀ b ∈ bs, b < 256) →
      base64Decode (base64Encode bs) = some bs := by
  intro bs
  match bs with
  | [] => intro _; simp [base64Encode, base64Decode]
  | [b1] =>
    intro h
    have hb1 : b1 < 256 := h b1 (by simp)
    simp only [base64Encode, base64Decode]
    rw [b64Val_b64Char (b1 / 4) (by omega), b64Val_b64Char (b1 % 4 * 16) (by omega)]
    have h16 : b1 % 4 * 16 % 16 = 0 := by omega
    simp [h16]
    omega
  | [b1, b2] =>
    intro h
    have hb1 : b1 < 256 := h b1 (by simp)
    have hb2 : b2 < 256 := h b2 (by simp)
    simp only [base64Encode, base64Decode]
    rw [b64Val_b64Char (b1 / 4) (by omega),
      b64Val_b64Char (b1 % 4 * 16 + b2 / 16) (by omega),
      b64Val_b64Char (b2 % 16 * 4) (by omega)]
    have hne : b64Char (b2 % 16 * 4) ≠ 61 := b64Char_ne_pad _ (by omega)
    have h4 : b2 % 16 * 4 % 4 = 0 := by omega
    simp [hne, h4]
    constructor <;> omega
  | b1 :: b2 :: b3 :: rest =>
    intro h
    have hb1 : b1 < 256 := h b1 (by simp)
    have hb2 : b2 < 256 := h b2 (by simp)
    have hb3 : b3 < 256 := h b3 (by simp)
    have ih : base64Decode (base64Encode rest) = some rest :=
      base64Decode_encode rest (fun b hb =>
        h b (List.mem_cons_of_mem _ (List.mem_cons_of_mem _
          (List.mem_cons_of_mem _ hb))))
    simp only [base64Encode, base64Decode]
    rw [b64Val_b64Char (b1 / 4) (by omega),
      b64Val_b64Char (b1 % 4 * 16 + b2 / 16) (by omega),
      b64Val_b64Char (b2 % 16 * 4 + b3 / 64) (by omega),
      b64Val_b64Char (b3 % 64) (by omega)]
    have hne1 : b64Char (b2 % 16 * 4 + b3 / 64) ≠ 61 := b64Char_ne_pad _ (by omega)
    have hne2 : b64Char (b3 % 64) ≠ 61 := b64Char_ne_pad _ (by omega)
    simp [hne1, hne2, ih]
    refine ⟨by omega, by omega, by omega⟩

/-- Continuation byte of a UTF-8 sequence: 0x80 to 0xBF. -/
def utf8Cont (b : Nat) : Bool := decide (128 ≤ b ∧ b ≤ 191)

/-- UTF-8 validity of a byte list, as checked by Rust's
String::from_utf8: ASCII, and 2- to 4-byte sequences with the standard
range restrictions (no overlong forms, no surrogates, max U+10FFFF). -/
def utf8Valid : List Nat → Bool
  | [] => true
  | b :: rest =>
    if b ≤ 127 then utf8Valid rest
    else if 194 ≤ b ∧ b ≤ 223 then
      match rest with
      | c1 :: r => utf8Cont c1 && utf8Valid r
      | [] => false
    else if b = 224 then
      match rest with
      | c1 :: c2 :: r => decide (160 ≤ c1 ∧ c1 ≤ 191) && utf8Cont c2 && utf8Valid r
      | _ => false
    else if 225 ≤ b ∧ b ≤ 236 then
      match rest with
      | c1 :: c2 :: r => utf8Cont c1 && utf8Cont c2 && utf8Valid r
      | _ => false
    else if b = 237 then
      match rest with
      | c1 :: c2 :: r => decide (128 ≤ c1 ∧ c1 ≤ 159) && utf8Cont c2 && utf8Valid r
      | _ => false
    else if 238 ≤ b ∧ b ≤ 239 then
      match rest with
      | c1 :: c2 :: r => utf8Cont c1 && utf8Cont c2 && utf8Valid r
      | _ => false
    else if b = 240 then
      match rest with
      | c1 :: c2 :: c3 :: r =>
        decide (144 ≤ c1 ∧ c1 ≤ 191) && utf8Cont c2 && utf8Cont c3 && utf8Valid r
      | _ => false
    else if 241 ≤ b ∧ b ≤ 243 then
      match rest with
      | c1 :: c2 :: c3 :: r => utf8Cont c1 && utf8Cont c2 && utf8Cont c3 && utf8Valid r
      | _ => false
    else if b = 244 then
      match rest with
      | c1 :: c2 :: c3 :: r =>
        decide (128 ≤ c1 ∧ c1 ≤ 143) && utf8Cont c2 && utf8Cont c3 && utf8Valid r
      | _ => false
    else false

/-- Discriminator for the error case of an Except value. -/
def exceptIsError {ε α : Type} : Except ε α → Bool
  | .error _ => true
  | .ok _ => false

/- ── Crypto Envelope (src/src-tauri/src/crypto/cipher.rs) ──────────────
Strings are modelled as their UTF-8 byte lists.  The aes_gcm crate is
external to the repository; its Aes256Gcm cipher is abstracted as a pair of
seal/open functions over (key, nonce, data), and the crate's AEAD
correctness contract appears as an explicit hypothesis where needed.
Encryption's 12 random nonce bytes are passed in as an argument. -/

/-- Abstract AEAD cipher standing for the aes_gcm crate: aeadSeal is
encryption (key, nonce, plaintext to ciphertext-with-tag), aeadOpen is
decryption, returning none when the tag does not verify. -/
structure AeadCipher where
  aeadSeal : List Nat → List Nat → List Nat → List Nat
  aeadOpen : List Nat → List Nat → List Nat → Option (List Nat)

/-- UTF-8 bytes of the literal tag prepended to every ciphertext
(ENC_PREFIX in cipher.rs). -/
def ENC_PREFIX : List Nat := [69, 78, 67, 58]

/-- Model of CryptoEngine: the AEAD cipher together with the 256-bit key
baked in by CryptoEngine::new. -/
structure CryptoEngine where
  aead : AeadCipher
  key : List Nat

/-- CryptoEngine::encrypt — seal under a fresh 12-byte nonce (drawn by the
caller of the model), then prepend the tag to the base64 of
nonce plus ciphertext. -/
def CryptoEngine.encrypt (e : CryptoEngine) (nonce plaintext : List Nat) :
    List Nat :=
  ENC_PREFIX ++ base64Encode (nonce ++ e.aead.aeadSeal e.key nonce plaintext)

/-- CryptoEngine::decrypt — values without the tag pass through unchanged;
otherwise base64-decode, require at least the 12 nonce bytes, unseal, and
require UTF-8 validity of the plaintext. -/
def CryptoEngine.decrypt (e : CryptoEngine) (stored : List Nat) :
    Except String (List Nat) :=
  if stored.take 4 ≠ ENC_PREFIX then .ok stored
  else
    match base64Decode (stored.drop 4) with
    | none => .error "Base64 decode failed"
    | some combined =>
      if combined.length < 12 then .error "Invalid encrypted data: too short"
      else
        match e.aead.aeadOpen e.key (combined.take 12) (combined.drop 12) with
        | none => .error "Decryption failed"
        | some plaintext =>
          if utf8Valid plaintext then .ok plaintext
          else .error "Invalid UTF-8 after decryption"

/-- C4: for every plaintext p and every 256-bit key k, decrypting the result
of encrypting p under k returns p.  The nonce is the 12 random bytes drawn
inside encrypt; hopen is the AEAD correctness contract of the aes_gcm crate
(external to the repository); the bound hypotheses state that nonce, sealed
ciphertext, and plaintext are genuine byte strings (bytes below 256,
plaintext valid UTF-8, as Rust &str guarantees). -/
theorem c4_decrypt_encrypt_roundtrip (aead : AeadCipher) (key nonce p : List Nat)
    (_hkey : key.length = 32) (hnonce : nonce.length = 12)
    (hnb : ∀ b ∈ nonce, b < 256)
    (hsb : ∀ b ∈ aead.aeadSeal key nonce p, b < 256)
    (hutf : utf8Valid p = true)
    (hopen : aead.aeadOpen key nonce (aead.aeadSeal key nonce p) = some p) :
    CryptoEngine.decrypt ⟨aead, key⟩ (CryptoEngine.encrypt ⟨aead, key⟩ nonce p) =
      .ok p := by
  have hcomb : ∀ b ∈ nonce ++ aead.aeadSeal key nonce p, b < 256 := by
    intro b hb
    rcases List.mem_append.mp hb with h | h
    exacts [hnb b h, hsb b h]
  have hdec := base64Decode_encode _ hcomb
  have hlen12 : ¬ (nonce ++ aead.aeadSeal key nonce p).length < 12 := by
    simp [hnonce]
  simp [CryptoEngine.encrypt, CryptoEngine.decrypt, ENC_PREFIX, hdec, hlen12,
    List.take_left' hnonce, List.drop_left' hnonce, hopen, hutf]
  omega

/-- Witness for C4 at a concrete engine, key, nonce and plaintext. -/
theorem c4_witness :
    CryptoEngine.decrypt
        ⟨⟨fun _ _ pt => pt, fun _ _ ct => some ct⟩, List.replicate 32 0⟩
        (CryptoEngine.encrypt
          ⟨⟨fun _ _ pt => pt, fun _ _ ct => some ct⟩, List.replicate 32 0⟩
          (List.replicate 12 7) [104, 105]) = .ok [104, 105] :=
  c4_decrypt_encrypt_roundtrip ⟨fun _ _ pt => pt, fun _ _ ct => some ct⟩
    (List.replicate 32 0) (List.replicate 12 7) [104, 105]
    (by decide) (by decide) (by decide) (by decide) (by decide) rfl

/-- C5: decrypt on any input not starting with the ENC: tag returns the input
unchanged; on a tagged input it errors exactly when the base64 payload is
invalid, the decoded bytes are shorter than 12, the AEAD tag does not verify,
or the decrypted bytes are not valid UTF-8. -/
theorem c5_decrypt_error_characterization (e : CryptoEngine) (stored : List Nat) :
    (stored.take 4 ≠ ENC_PREFIX → CryptoEngine.decrypt e stored = .ok stored) ∧
    (∀ rest, stored = ENC_PREFIX ++ rest →
      (exceptIsError (CryptoEngine.decrypt e stored) = true ↔
        base64Decode rest = none ∨
        (∃ combined, base64Decode rest = some combined ∧
          (combined.length < 12 ∨
            (¬ combined.length < 12 ∧
              (e.aead.aeadOpen e.key (combined.take 12) (combined.drop 12) = none ∨
                ∃ pt,
                  e.aead.aeadOpen e.key (combined.take 12) (combined.drop 12) =
                    some pt ∧ utf8Valid pt = false)))))) := by
  constructor
  · intro hne
    simp [CryptoEngine.decrypt, hne]
  · intro rest hst
    subst hst
    have hpre : ((ENC_PREFIX ++ rest).take 4) = ENC_PREFIX := by simp [ENC_PREFIX]
    have hdrop : ((ENC_PREFIX ++ rest).drop 4) = rest := by simp [ENC_PREFIX]
    simp only [CryptoEngine.decrypt, hpre, hdrop, ne_eq, not_true_eq_false,
      if_false]
    cases hdec : base64Decode rest with
    | none => simp [exceptIsError]
    | some combined =>
      by_cases hlen : combined.length < 12
      · simp [exceptIsError, hlen]
      · simp only [if_neg hlen]
        cases hopen : e.aead.aeadOpen e.key (combined.take 12) (combined.drop 12) with
        | none =>
          simp [exceptIsError, hlen, hopen]
          omega
        | some pt =>
          by_cases hutf : utf8Valid pt = true
          · simp [exceptIsError, hlen, hopen, hutf]
          · simp [exceptIsError, hlen, hopen, hutf]
            omega

/-- Witness for C5: a value without the tag passes through unchanged, and a
tagged value with an invalid base64 payload is an error. -/
theorem c5_witness :
    CryptoEngine.decrypt
        ⟨⟨fun _ _ pt => pt, fun _ _ ct => some ct⟩, List.replicate 32 0⟩
        [112, 108] = .ok [112, 108] ∧
      exceptIsError
        (CryptoEngine.decrypt
          ⟨⟨fun _ _ pt => pt, fun _ _ ct => some ct⟩, List.replicate 32 0⟩
          (ENC_PREFIX ++ [33])) = true :=
  ⟨(c5_decrypt_error_characterization
      ⟨⟨fun _ _ pt => pt, fun _ _ ct => some ct⟩, List.replicate 32 0⟩
      [112, 108]).1 (by decide),
    ((c5_decrypt_error_characterization
      ⟨⟨fun _ _ pt => pt, fun _ _ ct => some ct⟩, List.replicate 32 0⟩
      (ENC_PREFIX ++ [33])).2 [33] rfl).mpr (Or.inl (by decide))⟩

/- ── Offline Queue (src/src-tauri/src/sync/offline_queue.rs) ───────────
WsMessage is the tagged union of src/src-tauri/src/sync/types.rs; UUIDs,
hashes, and base64 blobs are carried as Lean Strings.  The VecDeque inside
the Mutex is modelled as a list with its front at the head. -/

/-- WsMessage variants of sync/types.rs. -/
inductive WsMessage
  | SlotUpdate (slot_number : Int) (encrypted_blob : String) (timestamp : Int)
  | SlotUpdated (slot_number : Int) (encrypted_blob : String)
      (updated_by : String) (timestamp : Int)
  | HistoryPush (id : String) (encrypted_blob : String) (content_hash : String)
  | HistoryNew (id : String) (encrypted_blob : String) (content_hash : String)
      (device_id : String)
  | Error (message : String)
deriving DecidableEq, Repr

/-- Does a message match `SlotUpdate { slot_number: n, .. }`, the pattern of
the retain closure in OfflineQueue::enqueue. -/
def isSlotUpdateFor (n : Int) : WsMessage → Bool
  | .SlotUpdate m _ _ => decide (m = n)
  | _ => false

def isHistoryPush : WsMessage → Bool
  | .HistoryPush _ _ _ => true
  | _ => false

/-- OfflineQueue::enqueue — a SlotUpdate first removes every queued
SlotUpdate with the same slot_number (VecDeque::retain), then the message is
pushed at the back. -/
def enqueue (q : List WsMessage) (msg : WsMessage) : List WsMessage :=
  (match msg with
   | .SlotUpdate n _ _ => q.filter (fun existing => !(isSlotUpdateFor n existing))
   | _ => q) ++ [msg]

/-- OfflineQueue::drain — atomically removes and returns all messages,
leaving the queue empty. -/
def drain (q : List WsMessage) : List WsMessage × List WsMessage := (q, [])

/-- C6: enqueueing a slot-update for slot n removes every previously queued
slot-update for the same n and appends the new one at the tail; history-push
messages are never removed by any enqueue; enqueue(slot_update(n,a));
enqueue(slot_update(n,b)); drain() yields exactly the second message and
leaves the queue empty. -/
theorem c6_offline_queue_dedup (q : List WsMessage) (msg : WsMessage)
    (n : Int) (a b : String) (ta tb : Int) :
    (enqueue q (.SlotUpdate n b tb) =
      q.filter (fun e => !(isSlotUpdateFor n e)) ++ [.SlotUpdate n b tb]) ∧
    (∀ m ∈ q, isHistoryPush m = true → m ∈ enqueue q msg) ∧
    ((drain (enqueue (enqueue [] (.SlotUpdate n a ta)) (.SlotUpdate n b tb))).1 =
      [.SlotUpdate n b tb]) ∧
    ((drain q).2 = []) := by
  refine ⟨rfl, ?_, ?_, rfl⟩
  · intro m hm hhp
    cases msg with
    | SlotUpdate k eb ts =>
      simp only [enqueue, List.mem_append]
      left
      refine List.mem_filter.mpr ⟨hm, ?_⟩
      cases m <;> simp_all [isHistoryPush, isSlotUpdateFor]
    | _ => simp [enqueue, hm]
  · simp [enqueue, drain, isSlotUpdateFor]

/-- Witness for C6: a queued history push survives the enqueue of a slot
update. -/
theorem c6_witness :
    WsMessage.HistoryPush "i" "e" "h" ∈
      enqueue [WsMessage.HistoryPush "i" "e" "h"] (WsMessage.SlotUpdate 1 "x" 0) :=
  (c6_offline_queue_dedup [WsMessage.HistoryPush "i" "e" "h"]
      (WsMessage.SlotUpdate 1 "x" 0) 1 "a" "b" 0 1).2.1
    (WsMessage.HistoryPush "i" "e" "h") (by simp) rfl

/- ── Sync Manager (src/src-tauri/src/sync/manager.rs) ──────────────────
SyncManager::start_sync is embedded as a function of the externally
determined outcomes: whether auth is present, the result of
perform_full_slot_sync, the history_sync_enabled setting, and the result of
perform_initial_history_sync.  It returns the command result together with
the final value of the status field. -/

/-- SyncStatus of sync/types.rs. -/
inductive SyncStatus
  | Disconnected
  | Connecting
  | Connected
  | Syncing
deriving DecidableEq, Repr

/-- SyncManager::start_sync.  status is the value of the status field when
the call starts; the returned pair is (command result, status afterwards).
Mirrors manager.rs lines 188-242: missing auth errors out before the status
is touched; a slot-sync error propagates through the question-mark operator
after the status was set to Syncing; a history-sync error is only logged;
on success the status becomes Connected. -/
def start_sync (auth : Option Unit) (slotSync : Except String Nat)
    (historyEnabled : Bool) (historySync : Except String (Nat × Nat))
    (status : SyncStatus) : Except String String × SyncStatus :=
  match auth with
  | none => (.error "Not logged in", status)
  | some _ =>
    match slotSync with
    | .error e => (.error e, SyncStatus.Syncing)
    | .ok slotSynced =>
      let historyMsg :=
        if historyEnabled then
          match historySync with
          | .ok (pulled, pushed) =>
              s!", history: pulled {pulled}, pushed {pushed}"
          | .error _ => ""
        else ""
      (.ok s!"Synced {slotSynced} slots{historyMsg}", SyncStatus.Connected)

/-- Counterexample to C1 as stated: when slot reconciliation fails, start_sync
returns the error but the status afterwards is Syncing, not Disconnected. -/
theorem c1_counterexample :
    start_sync (some ()) (.error "network down") false (.ok (0, 0))
        SyncStatus.Disconnected =
      (.error "network down", SyncStatus.Syncing) ∧
    SyncStatus.Syncing ≠ SyncStatus.Disconnected := by
  exact ⟨rfl, by decide⟩

/-- C1 amended: on success start_sync returns Ok and the status is Connected;
when auth is missing it returns the error and leaves the status unchanged;
when slot reconciliation fails it returns that error and the status remains
Syncing (the code never reverts to Disconnected on failure). -/
theorem c1_start_sync_status (slotSync : Except String Nat)
    (historyEnabled : Bool) (historySync : Except String (Nat × Nat))
    (status : SyncStatus) :
    (start_sync none slotSync historyEnabled historySync status =
      (.error "Not logged in", status)) ∧
    (∀ e, slotSync = .error e →
      start_sync (some ()) slotSync historyEnabled historySync status =
        (.error e, SyncStatus.Syncing)) ∧
    (∀ k, slotSync = .ok k →
      ∃ msg, start_sync (some ()) slotSync historyEnabled historySync status =
        (.ok msg, SyncStatus.Connected)) := by
  refine ⟨rfl, ?_, ?_⟩
  · intro e he
    subst he
    rfl
  · intro k hk
    subst hk
    exact ⟨_, rfl⟩

/-- Witness for C1 amended: a concrete successful run ends Connected. -/
theorem c1_witness :
    ∃ msg, start_sync (some ()) (.ok 3) false (.ok (0, 0))
      SyncStatus.Disconnected = (.ok msg, SyncStatus.Connected) :=
  (c1_start_sync_status (.ok 3) false (.ok (0, 0)) SyncStatus.Disconnected).2.2
    3 rfl

/- ── Offline queue flush (manager.rs flush_offline_queue) ────────────── -/

/-- The send loop of SyncManager::flush_offline_queue: sendOk tells whether
client.send succeeds for a message.  On the first failure the failed message
is re-enqueued into the (already drained, hence empty) queue and the loop
breaks, so the messages after it are dropped. -/
def flushLoop (sendOk : WsMessage → Bool) :
    List WsMessage → List WsMessage → List WsMessage
  | [], q => q
  | msg :: rest, q =>
    if sendOk msg then flushLoop sendOk rest q else enqueue q msg

/-- SyncManager::flush_offline_queue — drain the queue; if nothing was
queued do nothing; if the WebSocket is absent the drained messages are
dropped; otherwise send them in order through flushLoop. -/
def flush_offline_queue (wsConnected : Bool) (sendOk : WsMessage → Bool)
    (q : List WsMessage) : List WsMessage :=
  let messages := (drain q).1
  if messages.isEmpty then (drain q).2
  else if wsConnected then flushLoop sendOk messages (drain q).2
  else (drain q).2

/-- C2 evaluated at the failing input: with slot_update(1,a) and a history
push queued and the first send failing, the flush leaves only the failed
slot_update in the queue; the drained but unsent history push is dropped
instead of being re-enqueued. -/
theorem c2_flush_drops_unsent :
    flush_offline_queue true (fun _ => false)
        [WsMessage.SlotUpdate 1 "a" 0, WsMessage.HistoryPush "i" "e" "h"] =
      [WsMessage.SlotUpdate 1 "a" 0] ∧
    WsMessage.HistoryPush "i" "e" "h" ∉
      flush_offline_queue true (fun _ => false)
        [WsMessage.SlotUpdate 1 "a" 0, WsMessage.HistoryPush "i" "e" "h"] := by
  constructor
  · rfl
  · simp [flush_offline_queue, flushLoop, drain, enqueue]

/- ── Slot Reconciler (src/src-tauri/src/sync/slot_sync.rs) ─────────────
The remote slot carries its blob as the base64 text returned by
GET /sync/slots and its updated_at as the RFC-3339 string; chrono's parser
is external code abstracted as the parameter p.  The local slot row is the
pair returned by Database::get_slot_raw. -/

/-- SlotResponse as seen by the reconciler (sync/types.rs). -/
structure RemoteSlot where
  slot_number : Int
  encrypted_blob : List Nat
  updated_at : String
  updated_by : Option String

/-- Modelled from the spec: Database::get_slot_raw and
Database::save_encrypted_to_slot are called by the reconciler but their
definitions are not under src/.  Spec 4.2, Save encrypted to slot: stores
the ciphertext blob without re-encrypting, sets updated_at from the incoming
timestamp, and binds updated_by to the specified device id.  A local slot
row is its optional ciphertext (UTF-8 bytes), updated_at in ms, and updating
device; get_slot_raw reads the first two fields. -/
structure LocalSlot where
  enc : Option (List Nat)
  updated_at : Int
  updated_by : Option String
deriving DecidableEq, Repr

/-- Modelled from the spec (4.2): Database::save_encrypted_to_slot replaces
the slot's ciphertext, timestamp, and updating device with the given
values. -/
def save_encrypted_to_slot (_s : LocalSlot) (enc : List Nat) (ts : Int)
    (device : String) : LocalSlot :=
  ⟨some enc, ts, some device⟩

/-- parse_timestamp of slot_sync.rs: parse the RFC-3339 string via chrono
(the abstracted p) and fall back to 0 on failure. -/
def parse_timestamp (p : String → Option Int) (ts : String) : Int :=
  (p ts).getD 0

/-- One iteration of the loop in perform_full_slot_sync, for a single slot
number: given the local row and the matching remote slot (if any), returns
the new local row, the base64 blob pushed to the server via
api.update_slot (if any), and the increment of the synced counter;
base64 or UTF-8 failures of a pulled blob abort with an error. -/
def syncOneSlot (p : String → Option Int) (device_id : String)
    (slot : LocalSlot) (remote : Option RemoteSlot) :
    Except String (LocalSlot × Option (List Nat) × Nat) :=
  match slot.enc, remote with
  | some local_enc, some remote_slot =>
    let remote_ts := parse_timestamp p remote_slot.updated_at
    if remote_ts > slot.updated_at then
      match base64Decode remote_slot.encrypted_blob with
      | none => .error "Base64 decode error"
      | some blob_bytes =>
        if utf8Valid blob_bytes then
          .ok (save_encrypted_to_slot slot blob_bytes remote_ts device_id, none, 1)
        else .error "UTF-8 error"
    else if slot.updated_at > remote_ts then
      .ok (slot, some (base64Encode local_enc), 1)
    else
      .ok (slot, none, 0)
  | some local_enc, none =>
    .ok (slot, some (base64Encode local_enc), 1)
  | none, some remote_slot =>
    match base64Decode remote_slot.encrypted_blob with
    | none => .error "Base64 decode error"
    | some blob_bytes =>
      if utf8Valid blob_bytes then
        let remote_ts := parse_timestamp p remote_slot.updated_at
        .ok (save_encrypted_to_slot slot blob_bytes remote_ts device_id, none, 1)
      else .error "UTF-8 error"
  | none, none =>
    .ok (slot, none, 0)

/-- C3: the reconciler implements last-writer-wins.  Only local: the local
ciphertext is pushed (and decoding the pushed blob gives back exactly the
local value, so the server then holds it).  Only remote: pulled, local
updated_at set to the remote timestamp.  Both: pull when remote is newer,
push when local is newer, nothing when equal.  In each transfer case both
sides end up holding the bytes whose updated_at was larger.  Spec-modelled
detail: the local row operations get_slot_raw / save_encrypted_to_slot are
modelled from spec 4.2. -/
theorem c3_slot_reconciler_lww (p : String → Option Int) (device_id : String)
    (le bs rblob : List Nat) (lt rt n : Int) (ub rub : Option String)
    (rts : String)
    (hdec : base64Decode rblob = some bs) (hutf : utf8Valid bs = true)
    (hle : ∀ b ∈ le, b < 256) (hp : p rts = some rt) :
    (syncOneSlot p device_id ⟨some le, lt, ub⟩ none =
        .ok (⟨some le, lt, ub⟩, some (base64Encode le), 1) ∧
      base64Decode (base64Encode le) = some le) ∧
    (syncOneSlot p device_id ⟨none, lt, ub⟩ (some ⟨n, rblob, rts, rub⟩) =
      .ok (⟨some bs, rt, some device_id⟩, none, 1)) ∧
    (rt > lt →
      syncOneSlot p device_id ⟨some le, lt, ub⟩ (some ⟨n, rblob, rts, rub⟩) =
        .ok (⟨some bs, rt, some device_id⟩, none, 1)) ∧
    (lt > rt →
      syncOneSlot p device_id ⟨some le, lt, ub⟩ (some ⟨n, rblob, rts, rub⟩) =
          .ok (⟨some le, lt, ub⟩, some (base64Encode le), 1) ∧
        base64Decode (base64Encode le) = some le) ∧
    (lt = rt →
      syncOneSlot p device_id ⟨some le, lt, ub⟩ (some ⟨n, rblob, rts, rub⟩) =
        .ok (⟨some le, lt, ub⟩, none, 0)) ∧
    (syncOneSlot p device_id ⟨none, lt, ub⟩ none = .ok (⟨none, lt, ub⟩, none, 0)) := by
  have hrt : parse_timestamp p rts = rt := by simp [parse_timestamp, hp]
  refine ⟨⟨rfl, base64Decode_encode le hle⟩, ?_, ?_, ?_, ?_, rfl⟩
  · simp [syncOneSlot, hrt, hdec, hutf, save_encrypted_to_slot]
  · intro hgt
    simp [syncOneSlot, hrt, hgt, hdec, hutf, save_encrypted_to_slot]
  · intro hgt
    have h1 : ¬ rt > lt := by omega
    exact ⟨by simp [syncOneSlot, hrt, h1, hgt], base64Decode_encode le hle⟩
  · intro heq
    have h1 : ¬ rt > lt := by omega
    have h2 : ¬ lt > rt := by omega
    simp [syncOneSlot, hrt, h1, h2]

/-- Witness for C3 at a concrete parser, local value, and remote slot. -/
theorem c3_witness :
    syncOneSlot (fun _ => some 5) "dev" ⟨some [65], 3, none⟩
        (some ⟨2, [81, 103, 61, 61], "t", none⟩) =
      .ok (⟨some [66], 5, some "dev"⟩, none, 1) :=
  (c3_slot_reconciler_lww (fun _ => some 5) "dev" [65] [66] [81, 103, 61, 61]
      3 5 2 none none "t" (by decide) (by decide) (by decide) rfl).2.2.1
    (by omega)

/-- C10: a remote slot whose updated_at string chrono cannot parse is
treated as timestamp 0 by the fallback in parse_timestamp; consequently a
local value with updated_at above 0 is pushed (local wins), and when no
local value exists the remote blob is stored locally with updated_at 0. -/
theorem c10_unparseable_timestamp (p : String → Option Int) (device_id : String)
    (le bs rblob : List Nat) (lt n : Int) (ub rub : Option String) (rts : String)
    (hnone : p rts = none)
    (hdec : base64Decode rblob = some bs) (hutf : utf8Valid bs = true) :
    parse_timestamp p rts = 0 ∧
    (lt > 0 →
      syncOneSlot p device_id ⟨some le, lt, ub⟩ (some ⟨n, rblob, rts, rub⟩) =
        .ok (⟨some le, lt, ub⟩, some (base64Encode le), 1)) ∧
    (syncOneSlot p device_id ⟨none, lt, ub⟩ (some ⟨n, rblob, rts, rub⟩) =
      .ok (⟨some bs, 0, some device_id⟩, none, 1)) := by
  have hrt : parse_timestamp p rts = 0 := by simp [parse_timestamp, hnone]
  refine ⟨hrt, ?_, ?_⟩
  · intro hpos
    have h1 : ¬ (0 : Int) > lt := by omega
    simp [syncOneSlot, hrt, h1, hpos]
  · simp [syncOneSlot, hrt, hdec, hutf, save_encrypted_to_slot]

/-- Witness for C10 with a parser that rejects the timestamp string. -/
theorem c10_witness :
    syncOneSlot (fun _ => none) "dev" ⟨some [65], 7, none⟩
        (some ⟨1, [81, 103, 61, 61], "bad", none⟩) =
      .ok (⟨some [65], 7, none⟩, some (base64Encode [65]), 1) :=
  (c10_unparseable_timestamp (fun _ => none) "dev" [65] [66] [81, 103, 61, 61]
      7 1 none none "bad" rfl (by decide) (by decide)).2.1 (by omega)

/- ── Key exchange (src/clipslot-server/src/routes/key_exchange.rs) ──────
The request code is a list of characters (str::trim and char::is_ascii_digit
are char-based).  The DashMap of link codes is a list of
(code, encrypted_key, created_at ms) entries with unique keys; DashMap's
remove is modelled by find? plus filtering the key out.  Instants are ms
since an arbitrary epoch; Duration::from_secs(300) is 300000 ms. -/

/-- Characters with the Unicode White_Space property, as tested by Rust's
char::is_whitespace (used by str::trim). -/
def rustIsWhitespace (c : Char) : Bool :=
  let n := c.toNat
  decide ((9 ≤ n ∧ n ≤ 13) ∨ n = 32 ∨ n = 133 ∨ n = 160 ∨ n = 5760 ∨
    (8192 ≤ n ∧ n ≤ 8202) ∨ n = 8232 ∨ n = 8233 ∨ n = 8239 ∨ n = 8287 ∨
    n = 12288)

/-- str::trim — removes whitespace from both ends. -/
def rustTrim (s : List Char) : List Char :=
  ((s.dropWhile rustIsWhitespace).reverse.dropWhile rustIsWhitespace).reverse

def isAsciiDigit (c : Char) : Bool := decide (48 ≤ c.toNat ∧ c.toNat ≤ 57)

/-- Store of pending link codes: code, encrypted master key, creation
instant.  DashMap keys are unique, so removing the key equals filtering it
out. -/
def LinkStore := List (List Char × String × Int)

/-- DashMap::remove — the stored value for the code, and the store without
it. -/
def removeCode (store : LinkStore) (code : List Char) :
    Option (String × Int) × LinkStore :=
  ((store.find? (fun e => decide (e.1 = code))).map (fun e => e.2),
    store.filter (fun e => !decide (e.1 = code)))

/-- HTTP outcome of redeem_link_code by status. -/
inductive RedeemResult
  | badRequest
  | notFound
  | gone
  | redeemOk (encrypted_key : String)
deriving DecidableEq, Repr

/-- redeem_link_code — trim the request code; 400 unless 6 ASCII digits;
remove the entry (one-time use); 404 when absent; 410 when the entry is
older than 5 minutes; otherwise return the stored encrypted key. -/
def redeem_link_code (now : Int) (store : LinkStore) (reqCode : List Char) :
    RedeemResult × LinkStore :=
  let code := rustTrim reqCode
  if code.length ≠ 6 ∨ ¬ code.all isAsciiDigit = true then
    (.badRequest, store)
  else
    match removeCode store code with
    | (some (encrypted_key, created_at), store2) =>
      if now - created_at > 300000 then (.gone, store2)
      else (.redeemOk encrypted_key, store2)
    | (none, store2) => (.notFound, store2)

/-- generate_link_code — rejects an empty key, then stores the key under the
(randomly drawn, here given) 6-digit code with the current instant; DashMap
insert replaces any entry with the same key. -/
def generate_link_code (now : Int) (store : LinkStore) (encrypted_key : String)
    (code : List Char) : Option (List Char × LinkStore) :=
  if encrypted_key = "" then none
  else some (code, (code, encrypted_key, now) ::
    store.filter (fun e => !decide (e.1 = code)))

/-- Removing a code leaves no entry with that code behind. -/
theorem find?_removeCode_none (store : LinkStore) (code : List Char) :
    ((removeCode store code).2).find? (fun e => decide (e.1 = code)) = none := by
  apply List.find?_eq_none.mpr
  intro x hx
  have hmem := List.mem_filter.mp hx
  simpa using hmem.2

/-- Counterexample to C7 as stated: the request code is trimmed before
validation, so a padded code that is not exactly 6 ASCII digits is not
answered with 400 (here: 404, since the store is empty). -/
theorem c7_counterexample :
    (' ' :: ('1' :: '2' :: '3' :: '4' :: '5' :: '6' :: [])).length ≠ 6 ∧
    (redeem_link_code 0 []
        (' ' :: ('1' :: '2' :: '3' :: '4' :: '5' :: '6' :: []))).1 ≠
      RedeemResult.badRequest := by
  decide

/-- C7 amended: after trimming, redeeming returns 400 unless the code is
exactly 6 ASCII digits; an unknown code gives 404; a stored code older than
5 minutes gives 410 and is deleted; a successful redemption returns the
stored encrypted key, deletes the code, and a second redemption of the same
code finds nothing, hence 404. -/
theorem c7_redeem_link_code (now now2 : Int) (store : LinkStore)
    (req : List Char) (key : String) (created : Int) (k : List Char) :
    ((rustTrim req).length ≠ 6 ∨ ¬ (rustTrim req).all isAsciiDigit = true →
      redeem_link_code now store req = (.badRequest, store)) ∧
    ((rustTrim req).length = 6 → (rustTrim req).all isAsciiDigit = true →
      (store.find? (fun e => decide (e.1 = rustTrim req)) = none →
        (redeem_link_code now store req).1 = .notFound) ∧
      (store.find? (fun e => decide (e.1 = rustTrim req)) = some (k, key, created) →
        (now - created > 300000 →
          redeem_link_code now store req =
            (.gone, (removeCode store (rustTrim req)).2)) ∧
        (¬ now - created > 300000 →
          redeem_link_code now store req =
            (.redeemOk key, (removeCode store (rustTrim req)).2) ∧
          (redeem_link_code now2 (removeCode store (rustTrim req)).2 req).1 =
            .notFound))) := by
  constructor
  · intro hbad
    simp only [redeem_link_code]
    rw [if_pos hbad]
  · intro hlen hdig
    have hvalid : ¬ ((rustTrim req).length ≠ 6 ∨
        ¬ (rustTrim req).all isAsciiDigit = true) := by
      simp [hlen, hdig]
    constructor
    · intro hnone
      simp only [redeem_link_code, removeCode]
      rw [if_neg hvalid, hnone]
      simp
    · intro hfound
      constructor
      · intro hexp
        simp only [redeem_link_code, removeCode]
        rw [if_neg hvalid, hfound]
        simp [hexp]
      · intro hexp
        constructor
        · simp only [redeem_link_code, removeCode]
          rw [if_neg hvalid, hfound]
          simp [hexp]
        · simp only [redeem_link_code]
          rw [if_neg hvalid]
          have h2 := find?_removeCode_none store (rustTrim req)
          simp only [removeCode] at h2 ⊢
          rw [h2]
          simp

/-- Witness for C7 amended: a fresh stored code redeems to its key, the
entry disappears, and the second redemption returns 404. -/
theorem c7_witness :
    redeem_link_code 1000
        [(('1' :: '2' :: '3' :: '4' :: '5' :: '6' :: []), "KEY", 500)]
        ('1' :: '2' :: '3' :: '4' :: '5' :: '6' :: []) =
      (.redeemOk "KEY", []) ∧
    (redeem_link_code 2000 []
        ('1' :: '2' :: '3' :: '4' :: '5' :: '6' :: [])).1 = .notFound := by
  have h := (c7_redeem_link_code 1000 2000
    [(('1' :: '2' :: '3' :: '4' :: '5' :: '6' :: []), "KEY", 500)]
    ('1' :: '2' :: '3' :: '4' :: '5' :: '6' :: []) "KEY" 500
    ('1' :: '2' :: '3' :: '4' :: '5' :: '6' :: [])).2
    (by decide) (by decide)
  have h2 := (h.2 (by decide)).2 (by decide)
  exact ⟨by simpa using h2.1, by simpa using h2.2⟩

/- ── HTTP history push (src/clipslot-server/src/routes/sync.rs) ─────────
The synced_history table is a list of rows; the INSERT with
ON CONFLICT (user_id, content_hash) DO NOTHING inserts exactly when no row
of the same user carries the same hash (a clash on the id primary key alone
would be a database error, modelled as dbError).  NOW() and created_at are
irrelevant to the claims and omitted.  The broadcast channel lookup is the
flag chanExists; a published frame is a ServerEvent. -/

/-- Row of the synced_history table. -/
structure HistoryRow where
  id : String
  user_id : String
  encrypted_blob : List Nat
  content_hash : String
  device_id : Option String
deriving DecidableEq, Repr

/-- HTTP outcome of push_history. -/
inductive PushStatus
  | created
  | badRequest
  | dbError
deriving DecidableEq, Repr

/-- Frame published on the per-user broadcast channel; the blob is the
base64 text of the request. -/
inductive ServerEvent
  | slotUpdated (slot_number : Int) (encrypted_blob : List Nat)
      (updated_by : String) (timestamp : Int)
  | historyNew (id : String) (encrypted_blob : List Nat) (content_hash : String)
      (device_id : String)
deriving DecidableEq, Repr

/-- push_history — base64-validate the blob (400 on failure); insert unless
a row with the same (user, content_hash) exists; publish history_new only
when a row was actually inserted, the token is device-bound, and the user
has a broadcast channel.  Returns (status, new table, published frame). -/
def push_history (table : List HistoryRow) (chanExists : Bool) (user_id : String)
    (device_id : Option String) (id : String) (encrypted_blob : List Nat)
    (content_hash : String) :
    PushStatus × List HistoryRow × Option ServerEvent :=
  match base64Decode encrypted_blob with
  | none => (.badRequest, table, none)
  | some blob =>
    if table.any (fun r =>
        decide (r.user_id = user_id) && decide (r.content_hash = content_hash)) then
      (.created, table, none)
    else if table.any (fun r => decide (r.id = id)) then
      (.dbError, table, none)
    else
      (.created, table ++ [⟨id, user_id, blob, content_hash, device_id⟩],
        match device_id, chanExists with
        | some d, true => some (.historyNew id encrypted_blob content_hash d)
        | _, _ => none)

/-- C8: two pushes for the same user with the same content_hash and
different ids both answer 201; only the first inserts, so exactly one row
with that (user, hash) exists afterwards, carrying the first id; the
history_new broadcast is published only by the inserting request (and only
when the token names a device and a channel exists). -/
theorem c8_history_push_idempotent (table : List HistoryRow) (chanExists : Bool)
    (user : String) (dev : Option String) (id1 id2 : String)
    (b64 blob : List Nat) (hash : String)
    (hdec : base64Decode b64 = some blob)
    (hfresh : table.all (fun r =>
      !(decide (r.user_id = user) && decide (r.content_hash = hash))) = true)
    (hid1 : table.all (fun r => !decide (r.id = id1)) = true) :
    (push_history table chanExists user dev id1 b64 hash =
      (.created, table ++ [HistoryRow.mk id1 user blob hash dev],
        match dev, chanExists with
        | some d, true => some (.historyNew id1 b64 hash d)
        | _, _ => none)) ∧
    (push_history (table ++ [HistoryRow.mk id1 user blob hash dev]) chanExists
        user dev id2 b64 hash =
      (.created, table ++ [HistoryRow.mk id1 user blob hash dev], none)) ∧
    (((table ++ [HistoryRow.mk id1 user blob hash dev]).filter (fun r =>
        decide (r.user_id = user) && decide (r.content_hash = hash))).length = 1) := by
  have hfresh' := List.all_eq_true.mp hfresh
  have hid1' := List.all_eq_true.mp hid1
  have hfresh2 : table.any (fun r =>
      decide (r.user_id = user) && decide (r.content_hash = hash)) = false := by
    rw [List.any_eq_false]
    intro x hx
    have hx2 := hfresh' x hx
    simp at hx2 ⊢
    tauto
  have hid1f : table.any (fun r => decide (r.id = id1)) = false := by
    rw [List.any_eq_false]
    intro x hx
    have hx2 := hid1' x hx
    simpa using hx2
  refine ⟨?_, ?_, ?_⟩
  · simp [push_history, hdec, hfresh2, hid1f]
  · simp only [push_history, hdec]
    have hany : ((table ++ [HistoryRow.mk id1 user blob hash dev]).any (fun r =>
        decide (r.user_id = user) && decide (r.content_hash = hash))) = true := by
      simp [List.any_append]
    rw [if_pos hany]
  · have hnil : (table.filter (fun r =>
        decide (r.user_id = user) && decide (r.content_hash = hash))) = [] := by
      apply List.filter_eq_nil_iff.mpr
      intro a ha
      have hx2 := hfresh' a ha
      simp at hx2 ⊢
      tauto
    simp [List.filter_append, hnil]

/-- Witness for C8 on an empty table with a device-bound token and a live
channel. -/
theorem c8_witness :
    push_history [] true "u" (some "d") "id1" [81, 103, 61, 61] "h" =
      (.created, [HistoryRow.mk "id1" "u" [66] "h" (some "d")],
        some (.historyNew "id1" [81, 103, 61, 61] "h" "d")) ∧
    push_history [HistoryRow.mk "id1" "u" [66] "h" (some "d")] true "u"
        (some "d") "id2" [81, 103, 61, 61] "h" =
      (.created, [HistoryRow.mk "id1" "u" [66] "h" (some "d")], none) := by
  have h := c8_history_push_idempotent [] true "u" (some "d") "id1" "id2"
    [81, 103, 61, 61] [66] "h" (by decide) (by decide) (by decide)
  exact ⟨by simpa using h.1, by simpa using h.2.1⟩

/- ── Get slot (src/src-tauri/src/storage/database.rs, get_slot) ─────────
The joined row (slot_number, name, updated_at, optional stored content) is
passed in; strings at this level are lists of characters, because the
preview logic is char-based (chars().count, char_indices().nth).  The
CryptoEngine dependency appears as the function dec, returning none exactly
when CryptoEngine::decrypt errors (the .ok() in the source). -/

/-- SlotInfo as returned by Database::get_slot. -/
structure SlotInfo where
  slot_number : Nat
  name : List Char
  content : Option (List Char)
  content_preview : Option (List Char)
  updated_at : Int
  is_empty : Bool
deriving DecidableEq, Repr

/-- The preview computation of get_slot: over 100 characters, the first 100
characters followed by three dots; otherwise the content itself. -/
def makePreview (c : List Char) : List Char :=
  if c.length > 100 then c.take 100 ++ ('.' :: '.' :: '.' :: []) else c

/-- Database::get_slot on the joined row: decrypt the linked item's content
if any (failures become none), derive the preview, and set is_empty when
content is none. -/
def get_slot (dec : List Char → Option (List Char)) (slot_number : Nat)
    (name : List Char) (updated_at : Int) (stored : Option (List Char)) :
    SlotInfo :=
  let content := stored.bind (fun encrypted => dec encrypted)
  { slot_number := slot_number, name := name, content := content,
    content_preview := content.map makePreview,
    updated_at := updated_at, is_empty := content.isNone }

/-- Character-level view of CryptoEngine::decrypt for an engine whose AEAD
never verifies: a value without the ENC: tag passes through unchanged
(the legacy-plaintext branch of cipher.rs), a tagged value fails. -/
def passthroughDec (s : List Char) : Option (List Char) :=
  if s.take 4 = ('E' :: 'N' :: 'C' :: ':' :: []) then none else some s

/-- Counterexample to C9 as stated: a linked plaintext item of 101
characters yields a preview of 103 characters (first 100 plus three dots),
exceeding the claimed 100-character bound. -/
theorem c9_counterexample :
    ((get_slot passthroughDec 1 [] 0
        (some (List.replicate 101 'a'))).content_preview.map List.length) =
      some 103 ∧ ¬ (103 : Nat) ≤ 100 := by
  constructor
  · simp [get_slot, passthroughDec, makePreview, List.replicate, Option.bind]
  · decide

/-- C9 amended: content is the decrypted plaintext of the linked item when
decryption succeeds (none when no item is linked or decryption fails); the
preview equals the content when it has at most 100 characters and otherwise
its first 100 characters followed by three dots — at most 103 characters,
split only at character boundaries; is_empty is true iff no item is linked
or its content fails to decrypt. -/
theorem c9_get_slot (dec : List Char → Option (List Char)) (sn : Nat)
    (name : List Char) (ts : Int) (stored : Option (List Char)) :
    ((get_slot dec sn name ts stored).content = stored.bind dec) ∧
    ((get_slot dec sn name ts stored).content_preview =
      (stored.bind dec).map makePreview) ∧
    (∀ c, (makePreview c).length ≤ 103) ∧
    (∀ c, c.length ≤ 100 → makePreview c = c) ∧
    (∀ c, c.length > 100 →
      makePreview c = c.take 100 ++ ('.' :: '.' :: '.' :: [])) ∧
    ((get_slot dec sn name ts stored).is_empty = true ↔
      stored = none ∨ ∃ e, stored = some e ∧ dec e = none) := by
  refine ⟨rfl, rfl, ?_, ?_, ?_, ?_⟩
  · intro c
    simp only [makePreview]
    split
    · simp only [List.length_append, List.length_take, List.length_cons,
        List.length_nil]
      omega
    · omega
  · intro c hc
    simp only [makePreview]
    rw [if_neg (by omega)]
  · intro c hc
    simp only [makePreview]
    rw [if_pos hc]
  · cases stored with
    | none => simp [get_slot]
    | some e =>
      cases hdec : dec e with
      | none => simp [get_slot, hdec]
      | some v => simp [get_slot, hdec]

/-- Witness for C9 amended: a short content is its own preview. -/
theorem c9_witness :
    makePreview ('a' :: 'b' :: []) = ('a' :: 'b' :: []) :=
  (c9_get_slot passthroughDec 1 [] 0 none).2.2.2.1 ('a' :: 'b' :: []) (by decide)

end ClipSlot
